import Mathlib

/-!
Verification of the data-reconciliation and indicator pipeline of the
Projeto-Django-SFM repository (backend/myapp/data_analysis.py together with
the constants of backend/myapp/utils.py).

The pandas dataframes are embedded shallowly as Lean lists of structures.
Machine floats are modelled as exact rationals; the IEEE special values that
the code can actually produce (division by zero yielding NaN or signed
infinity) are modelled explicitly by the `PValue` type.  `NaN` cells of
object columns are modelled as `Option` values, `pandas.Series.ne` is
modelled with its NaN semantics (NaN is unequal to everything, including
NaN), and `groupby(...)  .agg("first")` is modelled as first *non-null*
value, as pandas implements it.
-/

/-- Pandas `Series.round` / python `round`: round half to even. -/
def roundHE (q : ℚ) : ℤ :=
  let f : ℤ := q.floor
  let frac : ℚ := q - f
  if frac < 1/2 then f
  else if 1/2 < frac then f + 1
  else if f % 2 = 0 then f else f + 1

/-- `Series.round(3)`: round half to even at three decimals. -/
def round3 (q : ℚ) : ℚ := (roundHE (q * 1000) : ℚ) / 1000

/-- numpy `astype(int)` on a finite float: truncation toward zero. -/
def ratTrunc (q : ℚ) : ℤ := if 0 ≤ q then q.floor else -(-q).floor

/-- `Series.clip(lo, hi)` on one cell. -/
def clipQ (lo hi q : ℚ) : ℚ := min hi (max lo q)

/-- A float cell: NaN, the two infinities, or a finite (exactly represented)
value. -/
inductive PValue where
  | nan : PValue
  | pinf : PValue
  | ninf : PValue
  | fin (q : ℚ) : PValue
deriving DecidableEq, Repr

/-- Float division of finite values, with the IEEE zero-divisor results the
pandas expression `a / b` produces. -/
def pdivQQ (a b : ℚ) : PValue :=
  if b = 0 then
    (if 0 < a then .pinf else if a < 0 then .ninf else .nan)
  else .fin (a / b)

/-- Float comparison `x < c` for finite `c`: NaN compares false. -/
def pltc (x : PValue) (c : ℚ) : Bool :=
  match x with
  | .nan => false
  | .pinf => false
  | .ninf => true
  | .fin q => decide (q < c)

/-- `Series.round(3)` lifted to float cells (NaN and infinities unchanged). -/
def round3P : PValue → PValue
  | .fin q => .fin (round3 q)
  | x => x

/-- `replace([inf, -inf], 0).fillna(0)`: collapse the non-finite values to 0. -/
def toZeroQ : PValue → ℚ
  | .fin q => q
  | _ => 0

-- ================================================================================= --
-- join_qual_prod (data_analysis.py lines 439-512)
-- ================================================================================= --

/-- The 5% sensor mask of line 498:
`(df.total_ciclos - df.total_produzido_sensor) / df.total_ciclos < 0.05`,
with float division semantics for a zero cycle count. -/
def mask5 (total_ciclos total_produzido_sensor : ℚ) : Bool :=
  pltc (pdivQQ (total_ciclos - total_produzido_sensor) total_ciclos) (5/100)

/-- Lines 498-501 and the final `astype(int)` of line 507, per row:
the corrected `total_produzido` value. -/
def tpCalc (total_ciclos total_produzido_sensor bdj_vazias bdj_retrabalho : ℚ) : ℤ :=
  let ciclos := total_ciclos - bdj_vazias - bdj_retrabalho
  let sensor := total_produzido_sensor - bdj_retrabalho
  if mask5 total_ciclos total_produzido_sensor then ratTrunc sensor else ratTrunc ciclos

/-- A production row (production table, already date-normalised). -/
structure ProdRow where
  linha : ℤ
  maquina_id : String
  data_registro : ℤ
  turno : String
  produto : String
  total_ciclos : ℚ
  total_produzido_sensor : ℚ
deriving DecidableEq, Repr

/-- A quality row; `hora` is the parsed time-of-day hour of `hora_registro`. -/
structure QualRow where
  linha : ℤ
  maquina_id : String
  data_registro : ℤ
  hora : ℕ
  bdj_vazias : ℚ
  bdj_retrabalho : ℚ
deriving DecidableEq, Repr

/-- Shift derivation of lines 472-473: `hour // 8` mapped through
`{0: NOT, 1: MAT, 2: VES}`; other quotients give NaN. -/
def turnoOfHour (h : ℕ) : Option String :=
  match h / 8 with
  | 0 => some "NOT"
  | 1 => some "MAT"
  | 2 => some "VES"
  | _ => none

/-- Output row of `join_qual_prod` (reconciled production-with-quality). -/
structure PQRow where
  linha : ℤ
  maquina_id : String
  data_registro : ℤ
  turno : String
  produto : String
  total_ciclos : ℚ
  total_produzido_sensor : ℤ
  bdj_vazias : ℤ
  bdj_retrabalho : ℤ
  total_produzido : ℤ
deriving DecidableEq, Repr

/-- The grouping key of lines 478-492. -/
structure PQKey where
  linha : ℤ
  maquina_id : String
  data_registro : ℤ
  turno : String
deriving DecidableEq, Repr

/-- `groupby(["linha","maquina_id","data_registro","turno"]).sum().round(3)`
restricted to the two tray counters: sum per key (first-occurrence key
order; the key order only feeds a keyed left join, where it is irrelevant). -/
def qualAgg (qual : List QualRow) : List (PQKey × (ℚ × ℚ)) :=
  qual.foldl
    (fun acc q =>
      match turnoOfHour q.hora with
      | none => acc
      | some t =>
        let k : PQKey := ⟨q.linha, q.maquina_id, q.data_registro, t⟩
        match acc.lookup k with
        | some (v, r) =>
          acc.map (fun p => if p.1 = k then (k, (v + q.bdj_vazias, r + q.bdj_retrabalho)) else p)
        | none => acc ++ [(k, (q.bdj_vazias, q.bdj_retrabalho))])
    []

/-- `join_qual_prod` (lines 439-512): aggregate quality by
(line, machine, date, shift), left-join production to it (aggregated keys
are unique, so the left join is a lookup), zero-fill missing matches,
reconcile the production count, and cast counters to int. -/
def joinQualProd (prod : List ProdRow) (qual : List QualRow) : List PQRow :=
  let agg := (qualAgg qual).map (fun p => (p.1, (round3 p.2.1, round3 p.2.2)))
  prod.map fun p =>
    let k : PQKey := ⟨p.linha, p.maquina_id, p.data_registro, p.turno⟩
    let (v, r) := (agg.lookup k).getD (0, 0)
    { linha := p.linha
      maquina_id := p.maquina_id
      data_registro := p.data_registro
      turno := p.turno
      produto := p.produto
      total_ciclos := p.total_ciclos
      total_produzido_sensor := ratTrunc p.total_produzido_sensor
      bdj_vazias := ratTrunc v
      bdj_retrabalho := ratTrunc r
      total_produzido := tpCalc p.total_ciclos p.total_produzido_sensor v r }

-- Sanity examples (the spec's reconciliation round-trip numbers).
example : tpCalc 100 98 0 3 = 95 := by
  norm_num [tpCalc, mask5, pdivQQ, pltc, ratTrunc, Rat.floor]
example : tpCalc 100 80 2 3 = 95 := by
  norm_num [tpCalc, mask5, pdivQQ, pltc, ratTrunc, Rat.floor]
example : tpCalc 0 1 0 0 = 1 := by
  norm_num [tpCalc, mask5, pdivQQ, pltc, ratTrunc, Rat.floor]
example : tpCalc 0 0 2 3 = -5 := by
  norm_num [tpCalc, mask5, pdivQQ, pltc, ratTrunc, Rat.floor]

/-- The executable `Rat.floor` agrees with the order-theoretic floor. -/
theorem ratFloor_eq_intFloor (q : ℚ) : q.floor = ⌊q⌋ := by
  rw [Rat.floor_def', Rat.floor_def]

/-- `ratTrunc` is the identity on integers. -/
theorem ratTrunc_intCast (n : ℤ) : ratTrunc (n : ℚ) = n := by
  unfold ratTrunc
  rcases le_or_lt 0 (n : ℚ) with h | h
  · rw [if_pos h, ratFloor_eq_intFloor, Int.floor_intCast]
  · rw [if_neg (not_le.mpr h), ratFloor_eq_intFloor,
      show -(n : ℚ) = ((-n : ℤ) : ℚ) by push_cast; ring, Int.floor_intCast]
    ring

/-- With a positive divisor the float division is finite and the 5% mask is
the exact rational comparison. -/
theorem mask5_pos (tc s : ℚ) (h : 0 < tc) :
    mask5 tc s = decide ((tc - s) / tc < 5/100) := by
  unfold mask5 pdivQQ pltc
  rw [if_neg (ne_of_gt h)]

/-- Concrete production row used in witnesses: zero cycles, zero sensor. -/
def exProdZero : ProdRow :=
  { linha := 1, maquina_id := "TMF001", data_registro := 738000, turno := "MAT",
    produto := "PAO 400G", total_ciclos := 0, total_produzido_sensor := 0 }

/-- Concrete quality row used in witnesses: 2 empty trays, 3 rework trays,
registered at hour 9 (MAT shift). -/
def exQualZero : QualRow :=
  { linha := 1, maquina_id := "TMF001", data_registro := 738000, hora := 9,
    bdj_vazias := 2, bdj_retrabalho := 3 }

/-- Every output row of `joinQualProd` takes its corrected production count
from `tpCalc` applied to the row quantities that were joined. -/
theorem joinQualProd_rows (prod : List ProdRow) (qual : List QualRow)
    (row : PQRow) (hmem : row ∈ joinQualProd prod qual) :
    ∃ s v r : ℚ,
      row.total_produzido = tpCalc row.total_ciclos s v r ∧
      row.total_produzido_sensor = ratTrunc s ∧
      row.bdj_vazias = ratTrunc v ∧ row.bdj_retrabalho = ratTrunc r := by
  unfold joinQualProd at hmem
  rw [List.mem_map] at hmem
  obtain ⟨p, -, hp⟩ := hmem
  subst hp
  exact ⟨p.total_produzido_sensor, _, _, rfl, rfl, rfl, rfl⟩

/-- C1.  For every joined production/quality row with a positive cycle count
`join_qual_prod` applies the 5% reconciliation rule: when
`(total_ciclos − total_produzido_sensor) / total_ciclos < 0.05` the corrected
production is `total_produzido_sensor − bdj_retrabalho`, otherwise it is
`total_ciclos − bdj_vazias − bdj_retrabalho`; the spec's round-trip numbers
`(100, 98, rework 3) ↦ 95` and `(100, 80, empty 2, rework 3) ↦ 95` check out. -/
theorem C1_reconciliation_rule :
    (∀ tc s v r : ℚ, 0 < tc →
        tpCalc tc s v r =
          if (tc - s) / tc < 5/100 then ratTrunc (s - r) else ratTrunc (tc - v - r)) ∧
    tpCalc 100 98 0 3 = 95 ∧ tpCalc 100 80 2 3 = 95 := by
  refine ⟨fun tc s v r h => ?_, ?_, ?_⟩
  · unfold tpCalc
    rw [mask5_pos tc s h]
    by_cases hc : (tc - s) / tc < 5/100
    · simp [hc]
    · simp [hc]
  · norm_num [tpCalc, mask5, pdivQQ, pltc, ratTrunc, Rat.floor]
  · norm_num [tpCalc, mask5, pdivQQ, pltc, ratTrunc, Rat.floor]

/-- Witness for C1 at the concrete sensor-trusted input. -/
theorem C1_reconciliation_rule_witness :
    tpCalc 100 98 0 3 =
      if ((100 : ℚ) - 98) / 100 < 5/100 then ratTrunc (98 - 3)
      else ratTrunc (100 - 0 - 3) :=
  C1_reconciliation_rule.1 100 98 0 3 (by norm_num)

/-- Counterexample to C7 as stated: with `total_ciclos = 0` and a positive
sensor count the quotient is `−∞`, the `< 0.05` test *passes*, and the
sensor formula (not the cycle-based formula) is used. -/
theorem C7_counterexample :
    pdivQQ ((0 : ℚ) - 1) 0 = PValue.ninf ∧
    mask5 0 1 = true ∧
    tpCalc 0 1 0 0 = 1 ∧ ratTrunc ((0 : ℚ) - 0 - 0) = 0 := by
  refine ⟨by norm_num [pdivQQ], by norm_num [mask5, pdivQQ, pltc], ?_, ?_⟩
  · norm_num [tpCalc, mask5, pdivQQ, pltc, ratTrunc, Rat.floor]
  · norm_num [ratTrunc, Rat.floor]

/-- C7 (amended).  With `total_ciclos = 0` no division error occurs: the
mask is computed from the IEEE quotient.  When the (zero-filled) sensor
count is `≤ 0` the quotient is NaN or `+∞`, the `< 0.05` test fails and the
cycle-based formula is used; when the sensor count is positive the quotient
is `−∞`, the test passes and the sensor formula is used. -/
theorem C7_zero_cycles_behaviour (s v r : ℚ) :
    (s ≤ 0 → tpCalc 0 s v r = ratTrunc (0 - v - r)) ∧
    (0 < s → tpCalc 0 s v r = ratTrunc (s - r)) := by
  have hmask : mask5 0 s = decide (0 < s) := by
    unfold mask5 pdivQQ pltc
    rw [if_pos rfl]
    rcases lt_trichotomy s 0 with h | h | h
    · rw [if_pos (by linarith : (0 : ℚ) < 0 - s)]
      simp [not_lt.mpr (le_of_lt h)]
    · subst h; norm_num
    · rw [if_neg (by linarith : ¬(0 : ℚ) < 0 - s),
        if_pos (by linarith : (0 : ℚ) - s < 0)]
      simp [h]
  constructor
  · intro hs
    unfold tpCalc
    rw [hmask]
    simp [not_lt.mpr hs]
  · intro hs
    unfold tpCalc
    rw [hmask]
    simp [hs]

/-- Witness for C7 (amended) at `s = 0, v = 2, r = 3`. -/
theorem C7_zero_cycles_behaviour_witness :
    tpCalc 0 0 2 3 = ratTrunc ((0 : ℚ) - 2 - 3) :=
  (C7_zero_cycles_behaviour 0 2 3).1 le_rfl

/-- C10.  `join_qual_prod` applies no non-negativity clamp: a joined row with
zero cycles, zero sensor count and a positive tray total gets the strictly
negative corrected count `−(bdj_vazias + bdj_retrabalho)`; in particular the
concrete joined pair below yields `total_produzido = −5`. -/
theorem C10_negative_total_produzido :
    (∀ v r : ℕ, 0 < v + r →
        tpCalc 0 0 (v : ℚ) (r : ℚ) = -((v : ℤ) + r) ∧
        tpCalc 0 0 (v : ℚ) (r : ℚ) < 0) ∧
    (joinQualProd [exProdZero] [exQualZero]).map (fun x => x.total_produzido) = [-5] := by
  constructor
  · intro v r h
    have hmask : mask5 0 0 = false := by norm_num [mask5, pdivQQ, pltc]
    have hcast : ((0 : ℚ) - v - r) = (((-(v + r) : ℤ)) : ℚ) := by push_cast; ring
    have : tpCalc 0 0 (v : ℚ) (r : ℚ) = -((v : ℤ) + r) := by
      unfold tpCalc
      rw [hmask]
      simp only [Bool.false_eq_true, if_false]
      rw [hcast, ratTrunc_intCast]
    refine ⟨this, ?_⟩
    rw [this]
    omega
  · norm_num [joinQualProd, qualAgg, exProdZero, exQualZero, turnoOfHour,
      List.lookup, round3, roundHE, Rat.floor, tpCalc, mask5, pdivQQ, pltc, ratTrunc]

/-- Witness for C10 at `v = 2, r = 3`. -/
theorem C10_negative_total_produzido_witness :
    tpCalc 0 0 (2 : ℚ) (3 : ℚ) = -((2 : ℤ) + 3) ∧ tpCalc 0 0 (2 : ℚ) (3 : ℚ) < 0 := by
  have h := C10_negative_total_produzido.1 2 3 (by norm_num)
  exact_mod_cast h

-- ================================================================================= --
-- CleanData.clean_data (data_analysis.py lines 23-74)
-- ================================================================================= --

/-- A dataframe cell: NaN, a string, or a (float/int) number. -/
inductive Cell where
  | null : Cell
  | str (s : String) : Cell
  | num (q : ℚ) : Cell
deriving DecidableEq, Repr

/-- The error kinds relevant to `clean_data`: `keyError` is what
`DataFrame.dropna(subset=...)` raises when subset labels are absent (it
lists every missing label), `validationError` is the error kind the spec
postulates, `valueError`/`attributeError` are the python errors of the
remaining conversion steps. -/
inductive PdError where
  | keyError (missing : List String) : PdError
  | validationError (msg : String) : PdError
  | valueError (msg : String) : PdError
  | attributeError (attr : String) : PdError
deriving DecidableEq, Repr

/-- A dataframe: column labels plus rows of cells (aligned positionally). -/
structure Df where
  cols : List String
  rows : List (List Cell)
deriving DecidableEq, Repr

/-- Cell of `row` under column label `c` (NaN when out of range). -/
def dfGet (cols : List String) (row : List Cell) (c : String) : Cell :=
  match cols.indexOf? c with
  | some i => row.getD i .null
  | none => .null

/-- Rewrite the cell of column `c` in a row. -/
def setCellAt (cols : List String) (c : String) (f : Cell → Cell)
    (row : List Cell) : List Cell :=
  match cols.indexOf? c with
  | some i => row.set i (f (row.getD i .null))
  | none => row

/-- `df[c] = f(row)`: overwrite column `c` when it exists, append it
otherwise. -/
def addOrSetCol (df : Df) (c : String) (f : List Cell → Cell) : Df :=
  if df.cols.contains c then
    ⟨df.cols, df.rows.map (fun r => setCellAt df.cols c (fun _ => f r) r)⟩
  else ⟨df.cols ++ [c], df.rows.map (fun r => r ++ [f r])⟩

/-- `drop_duplicates()`: keep the first occurrence of each row. -/
def dedupAux (seen : List (List Cell)) : List (List Cell) → List (List Cell)
  | [] => []
  | r :: rest =>
    if seen.contains r then dedupAux seen rest
    else r :: dedupAux (r :: seen) rest

def dedupKeepFirst (l : List (List Cell)) : List (List Cell) := dedupAux [] l

def cellIsNull : Cell → Bool
  | .null => true
  | _ => false

/-- `astype(str).str.split(".").str[0]` on `hora_registro`: NaN renders as
the string "nan", strings lose everything from the first dot on.  (Numeric
time cells do not occur in this column.) -/
def cellSplitMs : Cell → Cell
  | .null => .str "nan"
  | .str s => .str (String.mk (s.data.takeWhile (· ≠ '.')))
  | .num q => .num q

/-- `fillna(0)` on one cell. -/
def cellFillZero : Cell → Cell
  | .null => .num 0
  | c => c

/-- `astype(int)` on one cell: floats truncate toward zero, numeric strings
parse, anything else raises `ValueError` (non-finite or unparsable). -/
def cellAsInt : Cell → Except PdError Cell
  | .num q => .ok (.num (ratTrunc q))
  | .str s =>
    match s.toInt? with
    | some n => .ok (.num n)
    | none => .error (.valueError s)
  | .null => .error (.valueError "NaN")

/-- Left zero-pad to six characters (`str.zfill(6)` on the values that occur
here: non-negative operator ids). -/
def zfill6 (s : String) : String :=
  if 6 ≤ s.length then s else String.mk (List.replicate (6 - s.length) '0') ++ s

/-- The mandatory columns of `dropna(subset=...)` (line 53). -/
def requiredCols : List String := ["maquina_id", "data_registro", "hora_registro"]

/-- Lines 59-64: the `linha` block (fillna 0, cast to int, drop zero lines,
derive `fabrica`). -/
def cleanDataLinha (df : Df) : Except PdError Df :=
  if df.cols.contains "linha" then
    ((df.rows.mapM (fun r =>
        match cellAsInt (cellFillZero (dfGet df.cols r "linha")) with
        | Except.ok c => Except.ok (setCellAt df.cols "linha" (fun _ => c) r)
        | Except.error e => Except.error e) : Except PdError (List (List Cell)))).map
      (fun rows =>
        let kept := rows.filter (fun r => dfGet df.cols r "linha" ≠ .num 0)
        addOrSetCol ⟨df.cols, kept⟩ "fabrica"
          (fun r =>
            match dfGet df.cols r "linha" with
            | .num q => .num (if 1 ≤ q ∧ q ≤ 9 then 1 else 2)
            | _ => .num 2))
  else .ok df

/-- Lines 67-72: the `operador_id` block (fillna 0, int cast, zero-filled
6-digit string, null out the `000000` sentinel, null out `os_numero = "0"`;
accessing `df.os_numero` without the column is an `AttributeError`). -/
def cleanDataOperador (df : Df) : Except PdError Df :=
  if df.cols.contains "operador_id" then
    ((df.rows.mapM (fun r =>
        match cellAsInt (cellFillZero (dfGet df.cols r "operador_id")) with
        | Except.ok (.num q) =>
          let padded := zfill6 (toString q.num)
          let cell : Cell := if padded = "000000" then .null else .str padded
          Except.ok (setCellAt df.cols "operador_id" (fun _ => cell) r)
        | Except.ok c => Except.ok (setCellAt df.cols "operador_id" (fun _ => c) r)
        | Except.error e => Except.error e) : Except PdError (List (List Cell)))).bind
      (fun rows =>
        if df.cols.contains "os_numero" then
          Except.ok ⟨df.cols, rows.map (setCellAt df.cols "os_numero"
            (fun c => if c = .str "0" then .null else c))⟩
        else Except.error (.attributeError "os_numero"))
  else .ok df

/-- The subset labels of `dropna(subset=...)` that are absent from the
table (pandas raises `KeyError` listing exactly these). -/
def cleanMissing (df : Df) : List String :=
  requiredCols.filter (fun c => !(df.cols.contains c))

/-- `CleanData.clean_data` (lines 29-74): drop duplicates, drop rows with a
null mandatory field (`dropna(subset=...)` raises `KeyError` first if any of
the three labels is structurally absent), strip sub-second fractions from
`hora_registro`, then the `linha` and `operador_id` blocks. -/
def cleanData (df : Df) : Except PdError Df :=
  if (cleanMissing df).isEmpty then
    (cleanDataLinha
      ⟨df.cols,
        ((dedupKeepFirst df.rows).filter
          (fun r => requiredCols.all (fun c => !(cellIsNull (dfGet df.cols r c))))).map
          (setCellAt df.cols "hora_registro" cellSplitMs)⟩).bind cleanDataOperador
  else .error (.keyError (cleanMissing df))

/-- A telemetry table whose `maquina_id` column is structurally absent. -/
def dfNoMaquina : Df :=
  ⟨["data_registro", "hora_registro"], [[.str "2024-01-01", .str "08:00:00"]]⟩

/-- Counterexample to C9 as stated: on a table with no `maquina_id` column
`clean_data` fails with pandas' `KeyError` (listing the missing label), not
with a `ValidationError` of the spec's taxonomy. -/
theorem C9_counterexample :
    cleanData dfNoMaquina = Except.error (PdError.keyError ["maquina_id"]) ∧
    ∀ msg, cleanData dfNoMaquina ≠ Except.error (PdError.validationError msg) := by
  have h : cleanData dfNoMaquina = Except.error (PdError.keyError ["maquina_id"]) := by
    rfl
  refine ⟨h, fun msg hc => ?_⟩
  rw [h] at hc
  simp at hc

/-- C9 (amended).  For every input table in which one of the mandatory
columns (`maquina_id`, `data_registro`, `hora_registro`) is structurally
absent, `clean_data` fails — with `KeyError` listing exactly the missing
labels (the behaviour of `dropna(subset=...)`), never with a
`ValidationError`. -/
theorem C9_missing_column_keyerror (df : Df)
    (h : ∃ c ∈ requiredCols, df.cols.contains c = false) :
    cleanData df = Except.error (PdError.keyError (cleanMissing df)) ∧
    ∀ msg, cleanData df ≠ Except.error (PdError.validationError msg) := by
  obtain ⟨c, hc, hnc⟩ := h
  have hmem : c ∈ cleanMissing df := by
    unfold cleanMissing
    exact List.mem_filter.mpr ⟨hc, by simp only [hnc, Bool.not_false]⟩
  have hne : (cleanMissing df).isEmpty = false := by
    cases hfl : cleanMissing df with
    | nil => rw [hfl] at hmem; cases hmem
    | cons a as => simp [List.isEmpty]
  have heq : cleanData df = Except.error (PdError.keyError (cleanMissing df)) := by
    unfold cleanData
    rw [if_neg (by rw [hne]; exact Bool.false_ne_true)]
  refine ⟨heq, fun msg hcon => ?_⟩
  rw [heq] at hcon
  simp at hcon

/-- Witness for C9 (amended) at the concrete column-less table. -/
theorem C9_missing_column_keyerror_witness :
    cleanData dfNoMaquina = Except.error (PdError.keyError (cleanMissing dfNoMaquina)) :=
  (C9_missing_column_keyerror dfNoMaquina ⟨"maquina_id", by decide, by decide⟩).1

-- ================================================================================= --
-- utils.py constants and string matching
-- ================================================================================= --

/-- Is `n` a prefix of `h`? (character lists). -/
def listPrefixC : List Char → List Char → Bool
  | [], _ => true
  | _ :: _, [] => false
  | a :: as, b :: bs => a = b && listPrefixC as bs

/-- Is `n` a contiguous substring of `h`? (character lists). -/
def listInfixC (n : List Char) : List Char → Bool
  | [] => listPrefixC n []
  | b :: bs => listPrefixC n (b :: bs) || listInfixC n bs

def lowerChars (s : String) : List Char := s.data.map Char.toLower

/-- `Series.str.contains(k, case=False)` on a present value. -/
def strContainsCI (s k : String) : Bool := listInfixC (lowerChars k) (lowerChars s)

/-- `Series.str.contains(k)` (case sensitive) on a present value. -/
def strContains (s k : String) : Bool := listInfixC k.data s.data

/-- utils.IndicatorType. -/
inductive IndicatorType where
  | EFFICIENCY : IndicatorType
  | PERFORMANCE : IndicatorType
  | REPAIR : IndicatorType
deriving DecidableEq, Repr

def CICLOS_ESPERADOS : ℚ := 23/2
def CICLOS_BOLINHA : ℚ := 7

/-- utils.DESC_EFF (insertion order preserved: later keys win on overlap). -/
def DESC_EFF : List (String × ℚ) :=
  [("Troca de Sabor", 15), ("Troca de Produto", 35), ("Refeição", 65),
   ("Café e Ginástica Laboral", 10), ("Treinamento", 60)]

def DESC_PERF : List (String × ℚ) :=
  [("Troca de Sabor", 15), ("Troca de Produto", 35), ("Refeição", 65),
   ("Café e Ginástica Laboral", 10), ("Treinamento", 60)]

def DESC_REP : List (String × ℚ) :=
  [("Troca de Produto", 35), ("Manutenção Preventiva", 480),
   ("Manutenção Corretiva Programada", 480)]

def NOT_EFF : List String :=
  ["Sem Produção", "Backup", "Limpeza para parada de Fábrica", "Saída para backup",
   "Revezamento", "Manutenção Preventiva", "Manutenção Corretiva Programada"]

def NOT_PERF : List String :=
  ["Sem Produção", "Backup", "Limpeza para parada de Fábrica", "Risco de Contaminação",
   "Parâmetros de Qualidade", "Manutenção", "Saída para backup", "Revezamento",
   "Manutenção Preventiva", "Manutenção Corretiva Programada"]

def AF_REP : List String := ["Manutenção", "Troca de Produtos"]

-- ================================================================================= --
-- ProductionIndicators (data_analysis.py lines 520-822)
-- ================================================================================= --

/-- One row of the saved unified timeline as `create_indicators` reads it. -/
structure InfoRow where
  linha : ℚ
  maquina_id : String
  turno : Option String
  data_registro : ℤ
  status : Option String
  motivo : Option String
  problema : Option String
  causa : Option String
  tempo : ℚ
  afeta_eff : ℚ
deriving DecidableEq, Repr

/-- `Series.isin(l)` on a nullable cell (NaN is in nothing). -/
def cellIn (x : Option String) (l : List String) : Bool :=
  match x with
  | some s => l.contains s
  | none => false

/-- Line 540: `df[["motivo","problema","causa"]].apply(lambda x:
x.isin(skip_list).any(), axis=1)`. -/
def inSkip (skip : List String) (r : InfoRow) : Bool :=
  cellIn r.motivo skip || cellIn r.problema skip || cellIn r.causa skip

/-- Lines 554-558: does any of motivo/problema/causa contain `k`
case-insensitively (`na=False`)? -/
def containsKey (k : String) (r : InfoRow) : Bool :=
  (match r.motivo with | some s => strContainsCI s k | none => false) ||
  (match r.problema with | some s => strContainsCI s k | none => false) ||
  (match r.causa with | some s => strContainsCI s k | none => false)

/-- A stopped row with its discount and excess columns. -/
structure DRow extends InfoRow where
  desconto : ℚ
  excedente : ℚ
deriving DecidableEq, Repr

/-- Per-row body of `__calculate_discount_time` (lines 526-571): initial
skip-list discount, substring table lookup (later entries overwrite), cap at
the row's own duration, `afeta_eff == 1` override, excess. -/
def discountRow (desc : List (String × ℚ)) (skip : List String)
    (ind : IndicatorType) (r : InfoRow) : DRow :=
  let d1 : ℚ :=
    if inSkip skip r then (if ind = IndicatorType.REPAIR then 0 else r.tempo) else 0
  let d2 := desc.foldl (fun d kv => if containsKey kv.1 r then kv.2 else d) d1
  let d3 := min d2 r.tempo
  let d4 := if r.afeta_eff = 1 then r.tempo else d3
  { toInfoRow := r, desconto := d4, excedente := max 0 (r.tempo - d4) }

/-- `__calculate_discount_time`: indicator-specific row subset (line 543-550)
then the per-row discount computation. -/
def calcDiscountTime (rows : List InfoRow) (desc : List (String × ℚ))
    (skip : List String) (ind : IndicatorType) : List DRow :=
  let subset :=
    match ind with
    | IndicatorType.EFFICIENCY => rows
    | IndicatorType.PERFORMANCE => rows.filter (fun r => !(inSkip skip r))
    | IndicatorType.REPAIR => rows.filter (fun r => inSkip skip r)
  subset.map (discountRow desc skip ind)

/-- The stoppage aggregation key of lines 648-656. -/
structure IKey where
  maquina_id : String
  linha : ℚ
  data_registro : ℤ
  turno : Option String
deriving DecidableEq, Repr

def ikeyOf (r : InfoRow) : IKey := ⟨r.maquina_id, r.linha, r.data_registro, r.turno⟩

/-- `groupby(["maquina_id","linha","data_registro","turno"]).agg(sum)` of
tempo/desconto/excedente (lines 648-656).  Rows with a NaN key component
(`turno`) are dropped, as pandas' groupby does. -/
def groupSum (rows : List DRow) : List (IKey × (ℚ × ℚ × ℚ)) :=
  rows.foldl
    (fun acc d =>
      match d.turno with
      | none => acc
      | some _ =>
        let k := ikeyOf d.toInfoRow
        match acc.lookup k with
        | some (t, dc, ex) =>
          acc.map (fun p =>
            if p.1 = k then (k, (t + d.tempo, dc + d.desconto, ex + d.excedente)) else p)
        | none => acc ++ [(k, (d.tempo, d.desconto, d.excedente))])
    []

/-- A production row as `create_indicators` consumes it (production joined
with quality). -/
structure CProdRow where
  linha : ℚ
  maquina_id : String
  turno : Option String
  data_registro : ℤ
  produto : String
  total_produzido : ℚ
deriving DecidableEq, Repr

/-- A production row merged with its aggregated stoppage sums and the
expected production time. -/
structure MRow where
  linha : ℚ
  maquina_id : String
  turno : Option String
  data_registro : ℤ
  produto : String
  total_produzido : ℚ
  tempo : ℚ
  desconto : ℚ
  excedente : ℚ
  tempo_esperado : ℚ
deriving DecidableEq, Repr

/-- `__get_elapsed_time` (lines 573-591), with the wall clock passed as the
rational number of minutes since local midnight. -/
def elapsedTime (turno : Option String) (nowM : ℚ) : ℚ :=
  let h : ℤ := (nowM / 60).floor
  if turno = some "MAT" ∧ 8 ≤ h ∧ h < 16 then nowM - 480
  else if turno = some "VES" ∧ 16 ≤ h ∧ h < 24 then nowM - 960
  else if turno = some "NOT" ∧ 0 ≤ h ∧ h < 8 then nowM
  else 480

/-- `__get_expected_production_time` per row (lines 593-609): elapsed time
minus discount floored for today's rows, `480 − discount` for past rows,
minimum 1. -/
def tempoEsperado (today : ℤ) (nowM : ℚ) (r : MRow) : ℚ :=
  max 1
    (if r.data_registro = today then ((elapsedTime r.turno nowM - r.desconto).floor : ℚ)
     else 480 - r.desconto)

/-- Left join of production with the aggregated stoppage sums (lines
662-671, aggregated keys are unique so this is a lookup; missing matches
zero-filled), then the expected-time column (line 674). -/
def mergeStops (agg : List (IKey × (ℚ × ℚ × ℚ))) (today : ℤ) (nowM : ℚ)
    (p : CProdRow) : MRow :=
  let (t, dc, ex) := (agg.lookup ⟨p.maquina_id, p.linha, p.data_registro, p.turno⟩).getD (0, 0, 0)
  let m : MRow :=
    { linha := p.linha, maquina_id := p.maquina_id, turno := p.turno,
      data_registro := p.data_registro, produto := p.produto,
      total_produzido := p.total_produzido,
      tempo := t, desconto := dc, excedente := ex, tempo_esperado := 0 }
  { m with tempo_esperado := tempoEsperado today nowM m }

/-- A row after the indicator-specific adjustment. -/
structure ARow where
  linha : ℚ
  maquina_id : String
  turno : Option String
  data_registro : ℤ
  produto : String
  total_produzido : ℚ
  tempo : ℚ
  desconto : ℚ
  excedente : ℚ
  tempo_esperado : ℚ
  producao_esperada : ℚ
  value : ℚ
deriving DecidableEq, Repr

/-- `__eff_adjust` per row (lines 731-785): expected production from the
" BOL" product mask, ratio with ∞/NaN collapsed to 0, the no-op
`(pe = 0 ∧ eff = 0)` assignment, negative clamp, zeroing for
`tempo_esperado ≤ 10` and for `desconto = 480`, the 1.2 cap for short
expected times, the [0, 1.5] clip, and the 0.01 floor. -/
def effAdjustRow (r : MRow) : ARow :=
  let bol := strContains r.produto " BOL"
  let pe : ℚ :=
    (roundHE (if bol then r.tempo_esperado * (CICLOS_BOLINHA * 2)
              else r.tempo_esperado * (CICLOS_ESPERADOS * 2)) : ℚ)
  let e0 := toZeroQ (round3P (pdivQQ r.total_produzido pe))
  let e1 := if pe = 0 ∧ e0 = 0 then (0 : ℚ) else e0
  let e2 := if e1 < 0 then 0 else e1
  let z1 := r.tempo_esperado ≤ 10
  let e3 := if z1 then 0 else e2
  let pe1 := if z1 then 0 else pe
  let te1 := if z1 then 0 else r.tempo_esperado
  let z2 := r.desconto = 480
  let e4 := if z2 then 0 else e3
  let pe2 := if z2 then 0 else pe1
  let te2 := if z2 then 0 else te1
  let e5 := if 6/5 < e4 ∧ te2 < 15 then 6/5 else e4
  let e6 := clipQ 0 (3/2) e5
  let e7 := if r.desconto < 5 ∧ r.total_produzido < 20 ∧ e6 = 0 then 1/100 else e6
  { linha := r.linha, maquina_id := r.maquina_id, turno := r.turno,
    data_registro := r.data_registro, produto := r.produto,
    total_produzido := r.total_produzido, tempo := r.tempo,
    desconto := r.desconto, excedente := r.excedente,
    tempo_esperado := te2, producao_esperada := pe2, value := e7 }

/-- The planned-stoppage key (date, shift, line) of lines 639-641/809. -/
structure PKey where
  data_registro : ℤ
  turno : Option String
  linha : ℚ
deriving DecidableEq, Repr

/-- Lines 639-641: stopped rows whose `causa` is "Sem Produção" or "Backup"
with `tempo ≥ 478` mark their (date, shift, line). -/
def paradasProgramadas (stops : List InfoRow) : List PKey :=
  (stops.filter
      (fun s => cellIn s.causa ["Sem Produção", "Backup"] && decide (478 ≤ s.tempo))).map
    (fun s => ⟨s.data_registro, s.turno, s.linha⟩)

/-- One output row of `__adjust`, given whether the production row matched a
planned-stoppage mark. -/
def adjustMk (r : MRow) (v : ℚ) (forced : Bool) : ARow :=
  let v1 := if forced then 0 else v
  let te1 := if forced then (0 : ℚ) else r.tempo_esperado
  { linha := r.linha, maquina_id := r.maquina_id, turno := r.turno,
    data_registro := r.data_registro, produto := r.produto,
    total_produzido := r.total_produzido, tempo := r.tempo,
    desconto := r.desconto, excedente := r.excedente,
    tempo_esperado := te1, producao_esperada := 0, value := clipQ 0 1 v1 }

/-- `__adjust` (lines 787-822): ratio with ∞/NaN collapsed to 0, left join
with the planned-stoppage marks (duplicate marks duplicate the row, as
`pd.merge` does), zeroing of value and expected time on a match, final
[0, 1] clip. -/
def adjustRows (rows : List MRow) (paradas : List PKey) : List ARow :=
  rows.flatMap (fun r =>
    let v0 := toZeroQ (round3P (pdivQQ r.excedente r.tempo_esperado))
    let hits := paradas.filter (fun k => k = ⟨r.data_registro, r.turno, r.linha⟩)
    if hits.isEmpty then [adjustMk r v0 false]
    else hits.map (fun _ => adjustMk r v0 true))

/-- Final output row of `create_indicators` after the integer casts and the
factory derivation of lines 689-698. -/
structure IndRow where
  fabrica : ℤ
  linha : ℚ
  maquina_id : String
  turno : Option String
  data_registro : ℤ
  tempo : ℤ
  desconto : ℤ
  excedente : ℤ
  tempo_esperado : ℤ
  total_produzido : ℤ
  producao_esperada : ℤ
  value : ℚ
deriving DecidableEq, Repr

/-- Lines 689-698: `fabrica = 1 if linha in range(1, 10) else 2` (a float
is in a python range iff it is integral and in bounds) and the `astype(int)`
casts; the indicator value itself stays a float. -/
def finalizeRow (a : ARow) : IndRow :=
  { fabrica := if 1 ≤ a.linha ∧ a.linha ≤ 9 ∧ ((a.linha.floor : ℚ) = a.linha) then 1 else 2,
    linha := a.linha, maquina_id := a.maquina_id, turno := a.turno,
    data_registro := a.data_registro,
    tempo := ratTrunc a.tempo, desconto := ratTrunc a.desconto,
    excedente := ratTrunc a.excedente, tempo_esperado := ratTrunc a.tempo_esperado,
    total_produzido := ratTrunc a.total_produzido,
    producao_esperada := ratTrunc a.producao_esperada, value := a.value }

def descOf : IndicatorType → List (String × ℚ)
  | IndicatorType.EFFICIENCY => DESC_EFF
  | IndicatorType.PERFORMANCE => DESC_PERF
  | IndicatorType.REPAIR => DESC_REP

def skipOf : IndicatorType → List String
  | IndicatorType.EFFICIENCY => NOT_EFF
  | IndicatorType.PERFORMANCE => NOT_PERF
  | IndicatorType.REPAIR => AF_REP

/-- `ProductionIndicators.create_indicators` (lines 611-729): filter the
stopped rows, collect the planned-stoppage marks (non-efficiency only),
discount computation, per-key aggregation, merge with production, expected
time, indicator-specific adjustment, final casts. -/
def createIndicators (info : List InfoRow) (prod : List CProdRow)
    (ind : IndicatorType) (today : ℤ) (nowM : ℚ) : List IndRow :=
  let stops := info.filter (fun r => r.status = some "parada")
  let paradas :=
    if ind = IndicatorType.EFFICIENCY then [] else paradasProgramadas stops
  let agg := groupSum (calcDiscountTime stops (descOf ind) (skipOf ind) ind)
  let merged := prod.map (mergeStops agg today nowM)
  let adjusted :=
    if ind = IndicatorType.EFFICIENCY then merged.map effAdjustRow
    else adjustRows merged paradas
  adjusted.map finalizeRow

theorem clipQ_bounds (lo hi q : ℚ) (h : lo ≤ hi) :
    lo ≤ clipQ lo hi q ∧ clipQ lo hi q ≤ hi := by
  unfold clipQ
  exact ⟨le_min h (le_max_left lo q), min_le_left hi _⟩

theorem ratTrunc_zero : ratTrunc 0 = 0 := by
  have := ratTrunc_intCast 0
  simpa using this

theorem if_floor_bounds (c : Prop) [Decidable c] (x : ℚ)
    (hx : 0 ≤ x ∧ x ≤ 3/2) :
    0 ≤ (if c then (1/100 : ℚ) else x) ∧ (if c then (1/100 : ℚ) else x) ≤ 3/2 := by
  split_ifs
  · norm_num
  · exact hx

/-- The efficiency adjustment always lands in [0, 1.5]. -/
theorem effAdjustRow_value_bounds (m : MRow) :
    0 ≤ (effAdjustRow m).value ∧ (effAdjustRow m).value ≤ 3/2 := by
  unfold effAdjustRow
  dsimp only
  exact if_floor_bounds _ _ (clipQ_bounds 0 (3/2) _ (by norm_num))

/-- The performance/repair adjustment always lands in [0, 1]. -/
theorem adjustMk_value_bounds (r : MRow) (v : ℚ) (forced : Bool) :
    0 ≤ (adjustMk r v forced).value ∧ (adjustMk r v forced).value ≤ 1 := by
  unfold adjustMk
  exact clipQ_bounds 0 1 _ (by norm_num)

/-- Every member of `adjustRows` is an `adjustMk` image. -/
theorem adjustRows_mem (rows : List MRow) (paradas : List PKey) (a : ARow)
    (ha : a ∈ adjustRows rows paradas) :
    ∃ r v forced, a = adjustMk r v forced := by
  unfold adjustRows at ha
  rw [List.mem_flatMap] at ha
  obtain ⟨r, -, hr⟩ := ha
  by_cases he :
      (List.filter (fun k => k = ⟨r.data_registro, r.turno, r.linha⟩) paradas).isEmpty
  · rw [if_pos he] at hr
    rw [List.mem_singleton] at hr
    exact ⟨r, _, false, hr⟩
  · rw [if_neg he] at hr
    rw [List.mem_map] at hr
    obtain ⟨k, -, hk⟩ := hr
    exact ⟨r, _, true, hk.symm⟩

/-- C4.  Every indicator value produced by `create_indicators` is bounded:
Efficiency values lie in [0, 1.5] (the 0.01 floor included), Performance and
Repair values lie in [0, 1]. -/
theorem C4_indicator_bounds (info : List InfoRow) (prod : List CProdRow)
    (ind : IndicatorType) (today : ℤ) (nowM : ℚ) (r : IndRow)
    (hr : r ∈ createIndicators info prod ind today nowM) :
    0 ≤ r.value ∧
    r.value ≤ (if ind = IndicatorType.EFFICIENCY then 3/2 else 1) := by
  unfold createIndicators at hr
  rw [List.mem_map] at hr
  obtain ⟨a, ha, hfa⟩ := hr
  have hv : r.value = a.value := by rw [← hfa]; rfl
  rw [hv]
  by_cases hind : ind = IndicatorType.EFFICIENCY
  · rw [if_pos hind] at ha ⊢
    rw [List.mem_map] at ha
    obtain ⟨m, -, hm⟩ := ha
    rw [← hm]
    exact effAdjustRow_value_bounds m
  · rw [if_neg hind] at ha ⊢
    obtain ⟨m, v, forced, hmk⟩ := adjustRows_mem _ _ a ha
    rw [hmk]
    exact adjustMk_value_bounds m v forced

theorem ratTrunc_natCast (n : ℕ) : ratTrunc (n : ℚ) = n := by
  exact_mod_cast ratTrunc_intCast (n : ℤ)

theorem roundHE_intCast (n : ℤ) : roundHE (n : ℚ) = n := by
  unfold roundHE
  rw [ratFloor_eq_intFloor, Int.floor_intCast]
  norm_num

/-- Concrete production row for indicator witnesses (a past date, no
matching stoppage data). -/
def exCProdC4 : CProdRow :=
  { linha := 1, maquina_id := "TMF001", turno := some "MAT", data_registro := 100,
    produto := "PAO 400G", total_produzido := 500 }

/-- The performance row `create_indicators` produces from `exCProdC4` with
no stoppages. -/
def rrC4 : IndRow :=
  { fabrica := 1, linha := 1, maquina_id := "TMF001", turno := some "MAT",
    data_registro := 100, tempo := 0, desconto := 0, excedente := 0,
    tempo_esperado := 480, total_produzido := 500, producao_esperada := 0,
    value := 0 }

theorem createIndicators_exC4 :
    createIndicators [] [exCProdC4] IndicatorType.PERFORMANCE 0 0 = [rrC4] := by
  norm_num [createIndicators, paradasProgramadas, calcDiscountTime, groupSum,
    mergeStops, tempoEsperado, adjustRows, adjustMk, clipQ,
    pdivQQ, round3P, round3, roundHE, toZeroQ, ratTrunc, rrC4, exCProdC4,
    List.lookup, min_def, max_def, ratFloor_eq_intFloor]
  rw [if_neg (by simp : ¬(IndicatorType.PERFORMANCE = IndicatorType.EFFICIENCY))]
  norm_num [finalizeRow, ratTrunc, ratFloor_eq_intFloor, rrC4]

/-- Witness for C4 at a concrete performance run. -/
theorem C4_indicator_bounds_witness :
    0 ≤ rrC4.value ∧
    rrC4.value ≤
      (if IndicatorType.PERFORMANCE = IndicatorType.EFFICIENCY then 3/2 else 1) :=
  C4_indicator_bounds [] [exCProdC4] IndicatorType.PERFORMANCE 0 0 rrC4
    (by rw [createIndicators_exC4]; exact List.mem_singleton.mpr rfl)

/-- A 10-minute stoppage whose reason matches the 35-minute table entry
"Troca de Produto". -/
def exStop10 : InfoRow :=
  { linha := 1, maquina_id := "TMF001", turno := some "MAT", data_registro := 100,
    status := some "parada", motivo := some "Troca de Produto", problema := none,
    causa := none, tempo := 10, afeta_eff := 0 }

/-- C6.  In the shared discount computation the stored discount never
exceeds the interval's own duration, an `afeta_eff = 1` flag forces the
discount to the full duration (overriding the table lookup), and the
concrete 35-minute table entry against a 10-minute stoppage stores discount
10 with excess 0. -/
theorem C6_discount_cap :
    (∀ (rows : List InfoRow) (desc : List (String × ℚ)) (skip : List String)
        (ind : IndicatorType), ∀ d ∈ calcDiscountTime rows desc skip ind,
        d.desconto ≤ d.tempo ∧ (d.afeta_eff = 1 → d.desconto = d.tempo)) ∧
    (calcDiscountTime [exStop10] DESC_EFF NOT_EFF IndicatorType.EFFICIENCY).map
        (fun d => (d.desconto, d.excedente)) = [(10, 0)] := by
  constructor
  · intro rows desc skip ind d hd
    unfold calcDiscountTime at hd
    rw [List.mem_map] at hd
    obtain ⟨r, -, hr⟩ := hd
    subst hr
    unfold discountRow
    dsimp only
    by_cases ha : r.afeta_eff = 1
    · rw [if_pos ha]
      exact ⟨le_refl _, fun _ => rfl⟩
    · rw [if_neg ha]
      exact ⟨min_le_right _ _, fun h => absurd h ha⟩
  · have h1 : containsKey "Troca de Sabor" exStop10 = false := by decide
    have h2 : containsKey "Troca de Produto" exStop10 = true := by decide
    have h3 : containsKey "Refeição" exStop10 = false := by decide
    have h4 : containsKey "Café e Ginástica Laboral" exStop10 = false := by decide
    have h5 : containsKey "Treinamento" exStop10 = false := by decide
    have hskip : inSkip NOT_EFF exStop10 = false := by decide
    simp only [exStop10] at h1 h2 h3 h4 h5 hskip
    norm_num [calcDiscountTime, discountRow, DESC_EFF, h1, h2, h3, h4, h5, hskip,
      exStop10, min_def, max_def]

/-- Witness for C6 at the concrete 10-minute stoppage. -/
theorem C6_discount_cap_witness :
    (discountRow DESC_EFF NOT_EFF IndicatorType.EFFICIENCY exStop10).desconto ≤
      (discountRow DESC_EFF NOT_EFF IndicatorType.EFFICIENCY exStop10).tempo :=
  (C6_discount_cap.1 [exStop10] DESC_EFF NOT_EFF IndicatorType.EFFICIENCY
    (discountRow DESC_EFF NOT_EFF IndicatorType.EFFICIENCY exStop10)
    (by unfold calcDiscountTime; exact List.mem_singleton.mpr rfl)).1

/-- Machine TMA01 stopped the whole 480-minute VES shift with cause
"Backup" (a planned stoppage). -/
def exInfoC5 : List InfoRow :=
  [{ linha := 1, maquina_id := "TMA01", turno := some "VES", data_registro := 100,
     status := some "parada", motivo := none, problema := some "Parada Planejada",
     causa := some "Backup", tempo := 480, afeta_eff := 1 }]

/-- Machine TMB02, same line/date/shift as the planned stoppage, with its
own production row. -/
def exProdC5 : List CProdRow :=
  [{ linha := 1, maquina_id := "TMB02", turno := some "VES", data_registro := 100,
     produto := "PAO CENOURA", total_produzido := 0 }]

/-- C5.  A stopped interval with cause "Sem Produção" or "Backup" and
duration ≥ 478 marks its (date, shift, line); for Performance/Repair every
output row carrying a marked key has value 0 and expected time 0, while the
Efficiency pipeline ignores the marks: with the concrete marked key below
the efficiency row keeps expected time 480 and value 0.01 (its own floor
rule, not a forced zero). -/
theorem C5_planned_stoppage :
    (∀ (info : List InfoRow) (prod : List CProdRow) (ind : IndicatorType)
        (today : ℤ) (nowM : ℚ), ind ≠ IndicatorType.EFFICIENCY →
        ∀ r ∈ createIndicators info prod ind today nowM,
          (⟨r.data_registro, r.turno, r.linha⟩ : PKey) ∈
              paradasProgramadas (info.filter (fun x => x.status = some "parada")) →
          r.value = 0 ∧ r.tempo_esperado = 0) ∧
    ((⟨100, some "VES", 1⟩ : PKey) ∈
        paradasProgramadas (exInfoC5.filter (fun x => x.status = some "parada")) ∧
      (createIndicators exInfoC5 exProdC5 IndicatorType.EFFICIENCY 0 0).map
          (fun r => (r.value, r.tempo_esperado)) = [(1/100, 480)]) := by
  constructor
  · intro info prod ind today nowM hind r hr hkey
    simp only [createIndicators] at hr
    rw [if_neg hind, if_neg hind] at hr
    rw [List.mem_map] at hr
    obtain ⟨a, ha, hfa⟩ := hr
    unfold adjustRows at ha
    rw [List.mem_flatMap] at ha
    obtain ⟨m, -, hm⟩ := ha
    have hkey' :
        (⟨r.data_registro, r.turno, r.linha⟩ : PKey) =
          ⟨m.data_registro, m.turno, m.linha⟩ := by
      by_cases he :
          (List.filter (fun k => k = ⟨m.data_registro, m.turno, m.linha⟩)
            (paradasProgramadas (info.filter (fun x => x.status = some "parada")))).isEmpty
      · rw [if_pos he, List.mem_singleton] at hm
        rw [← hfa, hm]
        rfl
      · rw [if_neg he, List.mem_map] at hm
        obtain ⟨k, -, hk⟩ := hm
        rw [← hfa, ← hk]
        rfl
    by_cases he :
        (List.filter (fun k => k = ⟨m.data_registro, m.turno, m.linha⟩)
          (paradasProgramadas (info.filter (fun x => x.status = some "parada")))).isEmpty
    · exfalso
      rw [hkey'] at hkey
      rw [List.isEmpty_iff] at he
      have := List.filter_eq_nil_iff.mp he _ hkey
      simp at this
    · rw [if_neg he, List.mem_map] at hm
      obtain ⟨k, -, hk⟩ := hm
      rw [← hfa, ← hk]
      constructor
      · norm_num [finalizeRow, adjustMk, clipQ, min_def, max_def]
      · norm_num [finalizeRow, adjustMk, ratTrunc_zero]
  · exact ⟨by decide, by with_unfolding_all rfl⟩

/-- The forced performance row of machine TMB02 under the concrete planned
stoppage. -/
def rPerfC5 : IndRow :=
  { fabrica := 1, linha := 1, maquina_id := "TMB02", turno := some "VES",
    data_registro := 100, tempo := 0, desconto := 0, excedente := 0,
    tempo_esperado := 0, total_produzido := 0, producao_esperada := 0,
    value := 0 }

/-- Witness for C5's forcing clause at the concrete marked key. -/
theorem C5_planned_stoppage_witness :
    rPerfC5.value = 0 ∧ rPerfC5.tempo_esperado = 0 :=
  C5_planned_stoppage.1 exInfoC5 exProdC5 IndicatorType.PERFORMANCE 0 0
    (by simp) rPerfC5
    (by rw [show createIndicators exInfoC5 exProdC5 IndicatorType.PERFORMANCE 0 0 =
          [rPerfC5] from by with_unfolding_all rfl]
        exact List.mem_singleton.mpr rfl)
    (by decide)

-- ================================================================================= --
-- InfoIHMJoin (data_analysis.py lines 80-412)
-- ================================================================================= --

/-- One row of the merged info/IHM dataframe as `__clean_merge` leaves it
(lines 127-226): telemetry fields are present, annotation fields are the
nearest IHM match within tolerance or NaN.  `data_registro` is a day number,
`hora_registro` seconds of day. -/
structure MergedRow where
  fabrica : Option ℚ
  linha : Option ℚ
  maquina_id : String
  turno : Option String
  contagem_total_ciclos : Option ℤ
  contagem_total_produzido : Option ℤ
  data_registro : ℤ
  hora_registro : ℤ
  status : Option String
  data_registro_ihm : Option ℤ
  hora_registro_ihm : Option ℤ
  motivo : Option String
  equipamento : Option String
  problema : Option String
  causa : Option String
  os_numero : Option String
  operador_id : Option String
  s_backup : Option String
  afeta_eff : Option ℚ
deriving DecidableEq, Repr

/-- A merged row with the change-detection flags of
`__status_change`/`__motivo_change`. -/
structure SRow extends MergedRow where
  status_change : Bool
  maquina_id_change : Bool
  turno_change : Bool
  motivo_change : Bool
  change : Bool
deriving DecidableEq, Repr

/-- `Series.ne(Series.shift())` on one nullable cell: NaN is unequal to
everything, including NaN. -/
def pdNe {α : Type} [DecidableEq α] (cur prev : Option α) : Bool :=
  match cur, prev with
  | some a, some b => decide (a ≠ b)
  | _, _ => true

/-- `Series.ne(shift)` for a non-null column against the previous row
(absent for the first row). -/
def pdNeV {α : Type} [DecidableEq α] (cur : α) (prev : Option α) : Bool :=
  match prev with
  | some b => decide (cur ≠ b)
  | none => true

/-- One row of `__status_change` (lines 232-245): per-column change flags
against the previous row, their disjunction as `change`. -/
def mkSRow (prev : Option MergedRow) (r : MergedRow) : SRow :=
  let sc := pdNe r.status (match prev with | none => none | some p => p.status)
  let mc := pdNeV r.maquina_id (prev.map (fun p => p.maquina_id))
  let tc := pdNe r.turno (match prev with | none => none | some p => p.turno)
  { toMergedRow := r, status_change := sc, maquina_id_change := mc,
    turno_change := tc, motivo_change := false, change := sc || mc || tc }

def statusChangeAux : Option MergedRow → List MergedRow → List SRow
  | _, [] => []
  | prev, r :: rest => mkSRow prev r :: statusChangeAux (some r) rest

/-- `__status_change`: flag rows where status, machine or shift differs from
the previous row (the first row always changes: NaN comparisons are true). -/
def statusChange (l : List MergedRow) : List SRow := statusChangeAux none l

/-- The carried fill values of the ten `fill_cols` of `__fill_occ`. -/
structure FillState where
  motivo : Option String
  equipamento : Option String
  problema : Option String
  causa : Option String
  os_numero : Option String
  operador_id : Option String
  s_backup : Option String
  data_registro_ihm : Option ℤ
  hora_registro_ihm : Option ℤ
  afeta_eff : Option ℚ
deriving DecidableEq, Repr

def emptyFS : FillState := ⟨none, none, none, none, none, none, none, none, none, none⟩

def oOr {α : Type} (a b : Option α) : Option α :=
  match a with
  | some v => some v
  | none => b

/-- Fill a row's null `fill_cols` from the carried state. -/
def applyFS (st : FillState) (r : SRow) : SRow :=
  { r with motivo := oOr r.motivo st.motivo,
           equipamento := oOr r.equipamento st.equipamento,
           problema := oOr r.problema st.problema,
           causa := oOr r.causa st.causa,
           os_numero := oOr r.os_numero st.os_numero,
           operador_id := oOr r.operador_id st.operador_id,
           s_backup := oOr r.s_backup st.s_backup,
           data_registro_ihm := oOr r.data_registro_ihm st.data_registro_ihm,
           hora_registro_ihm := oOr r.hora_registro_ihm st.hora_registro_ihm,
           afeta_eff := oOr r.afeta_eff st.afeta_eff }

def stateOf (r : SRow) : FillState :=
  ⟨r.motivo, r.equipamento, r.problema, r.causa, r.os_numero, r.operador_id,
   r.s_backup, r.data_registro_ihm, r.hora_registro_ihm, r.afeta_eff⟩

/-- `groupby(group).ffill()`: a forward scan whose carried values reset at
each group boundary (`change = true` starts a group, since the group id is
the cumulative sum of the change flags). -/
def ffillPass : FillState → List SRow → List SRow
  | _, [] => []
  | st, r :: rest =>
    let st0 := if r.change then emptyFS else st
    let r' := applyFS st0 r
    r' :: ffillPass (stateOf r') rest

/-- `groupby(group).bfill()` as a scan over the reversed list: the row
following row `i` (in original order) is in the same group iff that row's
change flag is false. -/
def bfillPass : FillState → List SRow → List SRow
  | _, [] => []
  | st, r :: rest =>
    let r' := applyFS st r
    let st' := if r.change then emptyFS else stateOf r'
    r' :: bfillPass st' rest

/-- `df.replace(r"^s*$", None, regex=True)` on one string cell: the regex
(as written in the source, without a backslash) nulls exactly the strings
made of zero or more letters `s`. -/
def toNullS (x : Option String) : Option String :=
  match x with
  | some s => if s.data.all (fun c => c = 's') then none else some s
  | none => none

/-- The per-row tail of `__fill_occ` (lines 268-278): the regex replace on
the object columns, the running-status mask that nulls all fill columns, and
`afeta_eff.fillna(0)`.  (`maquina_id` is exempted from the replace: machine
ids are never strings of `s`.) -/
def fillPost (r : SRow) : SRow :=
  let r1 :=
    { r with status := toNullS r.status, turno := toNullS r.turno,
             motivo := toNullS r.motivo, equipamento := toNullS r.equipamento,
             problema := toNullS r.problema, causa := toNullS r.causa,
             os_numero := toNullS r.os_numero, operador_id := toNullS r.operador_id,
             s_backup := toNullS r.s_backup }
  let r2 :=
    if r1.status = some "rodando" then
      { r1 with motivo := none, equipamento := none, problema := none,
                causa := none, os_numero := none, operador_id := none,
                s_backup := none, data_registro_ihm := none,
                hora_registro_ihm := none, afeta_eff := none }
    else r1
  { r2 with afeta_eff := some (r2.afeta_eff.getD 0) }

/-- `__fill_occ` (lines 247-280): group-wise forward then backward fill of
the annotation columns, then the per-row adjustments. -/
def fillOcc (l : List SRow) : List SRow :=
  ((bfillPass emptyFS (ffillPass emptyFS l).reverse).reverse).map fillPost

/-- One row of `__motivo_change` (lines 282-304): re-flag changes of
motivo/causa/afeta_eff/hora_registro_ihm against the previous row and fold
them into `change`. -/
def mkMC (prev : Option SRow) (r : SRow) : SRow :=
  let pm := match prev with | none => none | some p => p.motivo
  let pc := match prev with | none => none | some p => p.causa
  let pa := match prev with | none => none | some p => p.afeta_eff
  let ph := match prev with | none => none | some p => p.hora_registro_ihm
  let m := (pdNe r.motivo pm && r.motivo.isSome) ||
           ((pdNe r.causa pc && r.causa.isSome) ||
            pdNe r.afeta_eff pa ||
            (pdNe r.hora_registro_ihm ph && r.hora_registro_ihm.isSome))
  { r with motivo_change := m, change := r.change || m }

def motivoChangeAux : Option SRow → List SRow → List SRow
  | _, [] => []
  | prev, r :: rest => mkMC prev r :: motivoChangeAux (some r) rest

def motivoChange (l : List SRow) : List SRow := motivoChangeAux none l

/-- Combined timestamp (line 310-312): seconds since the epoch of the
day/time pair. -/
def dataHora (r : MergedRow) : ℤ := r.data_registro * 86400 + r.hora_registro

/-- `groupby("group")`: the group id is the cumulative sum of `change`, so
the groups are the maximal runs delimited by `change = true` rows (rows
before the first change share group 0). -/
def chunkRuns : List SRow → List (List SRow)
  | [] => []
  | [a] => [[a]]
  | a :: b :: rest =>
    match chunkRuns (b :: rest) with
    | [] => [[a]]
    | c :: cs => if b.change then [a] :: c :: cs else (a :: c) :: cs

/-- `groupby(...).agg("first")` on one column: the first non-null value. -/
def firstNonNull {α : Type} : List (Option α) → Option α
  | [] => none
  | some a :: _ => some a
  | none :: rest => firstNonNull rest

/-- One aggregated interval (lines 314-341): the `agg` keeps these columns
and drops the cycle counters. -/
structure GRow where
  fabrica : Option ℚ
  linha : Option ℚ
  maquina_id : String
  turno : Option String
  status : Option String
  data_registro : ℤ
  hora_registro : ℤ
  motivo : Option String
  equipamento : Option String
  problema : Option String
  causa : Option String
  os_numero : Option String
  operador_id : Option String
  data_registro_ihm : Option ℤ
  hora_registro_ihm : Option ℤ
  s_backup : Option String
  data_hora : ℤ
  afeta_eff : Option ℚ
  change : Bool
  maquina_id_change : Bool
  motivo_change : Bool
deriving DecidableEq, Repr

/-- Aggregate one group to a single row, each column by its first non-null
value (`agg("first")`); the non-null columns take the head row's value. -/
def aggGroup : List SRow → Option GRow
  | [] => none
  | r :: rs =>
    some
      { fabrica := firstNonNull ((r :: rs).map (fun x => x.fabrica)),
        linha := firstNonNull ((r :: rs).map (fun x => x.linha)),
        maquina_id := r.maquina_id,
        turno := firstNonNull ((r :: rs).map (fun x => x.turno)),
        status := firstNonNull ((r :: rs).map (fun x => x.status)),
        data_registro := r.data_registro,
        hora_registro := r.hora_registro,
        motivo := firstNonNull ((r :: rs).map (fun x => x.motivo)),
        equipamento := firstNonNull ((r :: rs).map (fun x => x.equipamento)),
        problema := firstNonNull ((r :: rs).map (fun x => x.problema)),
        causa := firstNonNull ((r :: rs).map (fun x => x.causa)),
        os_numero := firstNonNull ((r :: rs).map (fun x => x.os_numero)),
        operador_id := firstNonNull ((r :: rs).map (fun x => x.operador_id)),
        data_registro_ihm := firstNonNull ((r :: rs).map (fun x => x.data_registro_ihm)),
        hora_registro_ihm := firstNonNull ((r :: rs).map (fun x => x.hora_registro_ihm)),
        s_backup := firstNonNull ((r :: rs).map (fun x => x.s_backup)),
        data_hora := dataHora r.toMergedRow,
        afeta_eff := firstNonNull ((r :: rs).map (fun x => x.afeta_eff)),
        change := r.change,
        maquina_id_change := r.maquina_id_change,
        motivo_change := r.motivo_change }

/-- An interval with its (exclusive) end timestamp and duration. -/
structure G2Row extends GRow where
  data_hora_final : ℤ
  tempo : ℤ
deriving DecidableEq, Repr

/-- Lines 350-361 for one interval, given its end timestamp: duration in
rounded minutes, clipped to [0, 480], with 478 snapped to 480. -/
def mkG2 (g : GRow) (dhf : ℤ) : G2Row :=
  let t := roundHE (((dhf - g.data_hora : ℤ) : ℚ) / 60)
  let t1 := min 480 (max 0 t)
  { toGRow := g, data_hora_final := dhf, tempo := if t1 = 478 then 480 else t1 }

/-- Lines 343-348: the end timestamp is the next interval's start unless the
next interval is a machine change; the last interval (and any interval
preceding a machine change) ends "now". -/
def addFinal (now : ℤ) : List GRow → List G2Row
  | [] => []
  | [a] => [mkG2 a now]
  | a :: b :: rest =>
    mkG2 a (if b.maquina_id_change then now else b.data_hora) :: addFinal now (b :: rest)

/-- `__calculate_time_difference` (lines 306-362). -/
def calcTimeDifference (l : List SRow) (now : ℤ) : List G2Row :=
  addFinal now ((chunkRuns l).filterMap aggGroup)

/-- A finished UnifiedInterval row of `join_data`. -/
structure URow where
  fabrica : ℤ
  linha : Option ℚ
  maquina_id : String
  turno : Option String
  status : Option String
  data_registro : ℤ
  hora_registro : ℤ
  motivo : Option String
  equipamento : Option String
  problema : Option String
  causa : Option String
  os_numero : Option String
  operador_id : Option String
  data_registro_ihm : ℤ
  hora_registro_ihm : ℤ
  s_backup : Option String
  data_hora : ℤ
  data_hora_final : ℤ
  tempo : ℤ
  afeta_eff : ℤ
deriving DecidableEq, Repr

/-- The row-wise tail of `join_data` (lines 393-410): the "Saída para
Backup" domain correction, factory fill/clip/cast, IHM timestamp backfill,
`afeta_eff` cast. -/
def finalAdjust (g : G2Row) : URow :=
  let mask := g.motivo = some "Saída para Backup"
  { fabrica := ratTrunc (max 0 (g.fabrica.getD 0)),
    linha := g.linha,
    maquina_id := g.maquina_id, turno := g.turno, status := g.status,
    data_registro := g.data_registro, hora_registro := g.hora_registro,
    motivo := g.motivo, equipamento := g.equipamento,
    problema := if mask then some "Parada Planejada" else g.problema,
    causa := if mask then some "Backup" else g.causa,
    os_numero := g.os_numero, operador_id := g.operador_id,
    data_registro_ihm := g.data_registro_ihm.getD g.data_registro,
    hora_registro_ihm := g.hora_registro_ihm.getD g.hora_registro,
    s_backup := if mask then g.s_backup else none,
    data_hora := g.data_hora, data_hora_final := g.data_hora_final,
    tempo := g.tempo,
    afeta_eff := ratTrunc (g.afeta_eff.getD 0) }

/-- `InfoIHMJoin.join_data` from the merged dataframe on (lines 364-412),
with the wall clock `now` (seconds since the epoch, floored to the second)
passed explicitly. -/
def joinData (l : List MergedRow) (now : ℤ) : List URow :=
  ((calcTimeDifference (motivoChange (fillOcc (statusChange l))) now).map
      finalAdjust).filter
    (fun u => 1 ≤ u.fabrica && u.fabrica ≤ 14)

/-- Every row of `addFinal` is an `mkG2` image of a row of the input. -/
theorem addFinal_mem (now : ℤ) :
    ∀ (gs : List GRow) (x : G2Row), x ∈ addFinal now gs →
      ∃ g dhf, g ∈ gs ∧ x = mkG2 g dhf := by
  intro gs
  induction gs with
  | nil => intro x hx; simp [addFinal] at hx
  | cons a rest ih =>
    intro x hx
    cases rest with
    | nil =>
      simp only [addFinal, List.mem_singleton] at hx
      exact ⟨a, now, List.mem_singleton.mpr rfl, hx⟩
    | cons b rest2 =>
      rw [show addFinal now (a :: b :: rest2) =
            mkG2 a (if b.maquina_id_change then now else b.data_hora) ::
              addFinal now (b :: rest2) from rfl] at hx
      rcases List.mem_cons.mp hx with h | h
      · exact ⟨a, _, List.mem_cons_self a _, h⟩
      · obtain ⟨g, dhf, hg, hx'⟩ := ih x h
        exact ⟨g, dhf, List.mem_cons_of_mem a hg, hx'⟩

/-- The duration of any computed interval is clipped to [0, 480] and never
equals 478 (478 is snapped to 480). -/
theorem mkG2_tempo_bounds (g : GRow) (dhf : ℤ) :
    0 ≤ (mkG2 g dhf).tempo ∧ (mkG2 g dhf).tempo ≤ 480 ∧ (mkG2 g dhf).tempo ≠ 478 := by
  unfold mkG2
  dsimp only
  by_cases h : min 480 (max 0 (roundHE (((dhf - g.data_hora : ℤ) : ℚ) / 60))) = 478
  · rw [if_pos h]
    norm_num
  · rw [if_neg h]
    refine ⟨le_min (by norm_num) (le_max_left 0 _), min_le_left _ _, h⟩

/-- C2.  Every UnifiedInterval row produced by `join_data` has
`0 ≤ tempo ≤ 480`, and no row has `tempo = 478`: a raw computed duration of
exactly 478 minutes is snapped to 480. -/
theorem C2_tempo_clip (l : List MergedRow) (now : ℤ) (u : URow)
    (hu : u ∈ joinData l now) :
    0 ≤ u.tempo ∧ u.tempo ≤ 480 ∧ u.tempo ≠ 478 := by
  unfold joinData at hu
  rw [List.mem_filter] at hu
  obtain ⟨hu, -⟩ := hu
  rw [List.mem_map] at hu
  obtain ⟨g2, hg2, hfa⟩ := hu
  unfold calcTimeDifference at hg2
  obtain ⟨g, dhf, -, hx⟩ := addFinal_mem now _ g2 hg2
  have ht : u.tempo = (mkG2 g dhf).tempo := by
    rw [← hfa, hx]
    rfl
  rw [ht]
  exact mkG2_tempo_bounds g dhf

/-- A concrete one-row merged input: machine TMF1 running from 08:00 of day
100. -/
def exMerged : MergedRow :=
  { fabrica := some 1, linha := some 1, maquina_id := "TMF1", turno := some "MAT",
    contagem_total_ciclos := some 100, contagem_total_produzido := some 90,
    data_registro := 100, hora_registro := 28800, status := some "rodando",
    data_registro_ihm := none, hora_registro_ihm := none, motivo := none,
    equipamento := none, problema := none, causa := none, os_numero := none,
    operador_id := none, s_backup := none, afeta_eff := none }

/-- The UnifiedInterval `join_data` derives from `exMerged` at
`now = 8668860` (one minute after the row's timestamp). -/
def exURow : URow :=
  { fabrica := 1, linha := some 1, maquina_id := "TMF1", turno := some "MAT",
    status := some "rodando", data_registro := 100, hora_registro := 28800,
    motivo := none, equipamento := none, problema := none, causa := none,
    os_numero := none, operador_id := none, data_registro_ihm := 100,
    hora_registro_ihm := 28800, s_backup := none, data_hora := 8668800,
    data_hora_final := 8668860, tempo := 1, afeta_eff := 0 }

theorem joinData_exMerged : joinData [exMerged] 8668860 = [exURow] := by
  with_unfolding_all rfl

/-- Witness for C2 at the concrete one-interval run. -/
theorem C2_tempo_clip_witness :
    0 ≤ exURow.tempo ∧ exURow.tempo ≤ 480 ∧ exURow.tempo ≠ 478 :=
  C2_tempo_clip [exMerged] 8668860 exURow
    (by rw [joinData_exMerged]; exact List.mem_singleton.mpr rfl)

/-- Erase the two wall-clock-dependent fields of a UnifiedInterval row. -/
def eraseOpen (u : URow) : URow := { u with data_hora_final := 0, tempo := 0 }

/-- `addFinal` only adds the end timestamp and duration: the underlying
aggregated rows are unchanged. -/
theorem addFinal_toGRow (now : ℤ) :
    ∀ gs : List GRow, (addFinal now gs).map (fun x => x.toGRow) = gs := by
  intro gs
  induction gs with
  | nil => rfl
  | cons a rest ih =>
    cases rest with
    | nil => rfl
    | cons b r2 =>
      rw [show addFinal now (a :: b :: r2) =
            mkG2 a (if b.maquina_id_change then now else b.data_hora) ::
              addFinal now (b :: r2) from rfl]
      simp only [List.map_cons]
      rw [ih]
      rfl

/-- Rows that agree on everything except end timestamp and duration give
the same erased output row and the same factory filter verdict. -/
theorem eraseFinal_congr (x y : G2Row) (h : x.toGRow = y.toGRow) :
    eraseOpen (finalAdjust x) = eraseOpen (finalAdjust y) ∧
    (finalAdjust x).fabrica = (finalAdjust y).fabrica := by
  cases x with
  | mk gx dx tx =>
    cases y with
    | mk gy dy ty =>
      have hg : gx = gy := h
      subst hg
      exact ⟨rfl, rfl⟩

/-- The erased tail of `join_data` only depends on the aggregated rows, not
on the end timestamps. -/
theorem filterMapErase :
    ∀ (L1 L2 : List G2Row),
      L1.map (fun x => x.toGRow) = L2.map (fun x => x.toGRow) →
      ((L1.map finalAdjust).filter
          (fun u => 1 ≤ u.fabrica && u.fabrica ≤ 14)).map eraseOpen =
      ((L2.map finalAdjust).filter
          (fun u => 1 ≤ u.fabrica && u.fabrica ≤ 14)).map eraseOpen := by
  intro L1
  induction L1 with
  | nil =>
    intro L2 h
    cases L2 with
    | nil => rfl
    | cons y t2 => simp at h
  | cons x t ih =>
    intro L2 h
    cases L2 with
    | nil => simp at h
    | cons y t2 =>
      simp only [List.map_cons, List.cons.injEq] at h
      obtain ⟨hxy, ht⟩ := h
      obtain ⟨he, hf⟩ := eraseFinal_congr x y hxy
      simp only [List.map_cons, List.filter_cons]
      rw [hf]
      split_ifs with hc
      · simp only [List.map_cons]
        rw [he, ih t2 ht]
      · exact ih t2 ht

/-- C8 (amended).  `join_data` is a deterministic function of its inputs
and the wall-clock instant: two runs at the same instant are identical, and
runs at different instants agree on every field except the end timestamp
and duration, which for open intervals (the last one, and any interval
preceding a machine change) come from "now". -/
theorem C8_now_dependence (l : List MergedRow) (n1 n2 : ℤ) :
    (n1 = n2 → joinData l n1 = joinData l n2) ∧
    (joinData l n1).map eraseOpen = (joinData l n2).map eraseOpen := by
  refine ⟨fun h => by rw [h], ?_⟩
  unfold joinData calcTimeDifference
  exact filterMapErase _ _ (by rw [addFinal_toGRow, addFinal_toGRow])

/-- The UnifiedInterval `join_data` derives from `exMerged` one minute
later than `exURow` (the open interval's end moved with the clock). -/
def exURow2 : URow :=
  { exURow with data_hora_final := 8668920, tempo := 2 }

/-- Counterexample to C8 as stated: two runs of `join_data` on the same
input at different wall-clock instants differ — the open interval's end
timestamp and duration follow the clock. -/
theorem C8_counterexample :
    joinData [exMerged] 8668860 ≠ joinData [exMerged] 8668920 := by
  rw [joinData_exMerged,
    show joinData [exMerged] 8668920 = [exURow2] from by with_unfolding_all rfl]
  decide

/-- Witness for C8 (amended): at equal instants the runs coincide. -/
theorem C8_now_dependence_witness :
    joinData [exMerged] 8668860 = joinData [exMerged] 8668860 :=
  (C8_now_dependence [exMerged] 8668860 8668860).1 rfl

/-- The running-status invariant on one merged-pipeline row: a running row
carries no annotation fields. -/
def Pnull (r : SRow) : Prop :=
  r.status = some "rodando" →
    r.motivo = none ∧ r.equipamento = none ∧ r.problema = none ∧ r.causa = none ∧
    r.os_numero = none ∧ r.operador_id = none ∧ r.s_backup = none

/-- Adjacent-row invariant: a row that did not open a new group has the
same status as its predecessor. -/
def Rs (a b : SRow) : Prop := b.change = false → a.status = b.status

/-- Within-group invariant: equal statuses. -/
def SameStatus (a b : SRow) : Prop := a.status = b.status

theorem pdNe_eq_false {α : Type} [DecidableEq α] (a b : Option α)
    (h : pdNe a b = false) : a = b := by
  cases a with
  | none => cases b <;> simp [pdNe] at h
  | some x =>
    cases b with
    | none => simp [pdNe] at h
    | some y => simp [pdNe] at h; rw [h]

/-- `fillPost` establishes the running-status invariant. -/
theorem fillPost_P (r : SRow) : Pnull (fillPost r) := by
  unfold fillPost Pnull
  dsimp only
  split_ifs with h
  · intro _
    exact ⟨rfl, rfl, rfl, rfl, rfl, rfl, rfl⟩
  · intro hst
    exact absurd hst h

theorem fillOcc_P (l : List SRow) : ∀ r ∈ fillOcc l, Pnull r := by
  intro r hr
  unfold fillOcc at hr
  rw [List.mem_map] at hr
  obtain ⟨r', -, hr'⟩ := hr
  rw [← hr']
  exact fillPost_P r'

theorem motivoChangeAux_mem :
    ∀ (l : List SRow) (p : Option SRow) (x : SRow), x ∈ motivoChangeAux p l →
      ∃ p' r, r ∈ l ∧ x = mkMC p' r := by
  intro l
  induction l with
  | nil => intro p x hx; simp [motivoChangeAux] at hx
  | cons r rest ih =>
    intro p x hx
    rw [show motivoChangeAux p (r :: rest) =
          mkMC p r :: motivoChangeAux (some r) rest from rfl] at hx
    rcases List.mem_cons.mp hx with h | h
    · exact ⟨p, r, List.mem_cons_self r rest, h⟩
    · obtain ⟨p', r', hr', hx'⟩ := ih (some r) x h
      exact ⟨p', r', List.mem_cons_of_mem r hr', hx'⟩

/-- `mkMC` preserves the running-status invariant (it only rewrites the
change flags). -/
theorem mkMC_P (p : Option SRow) (r : SRow) (h : Pnull r) : Pnull (mkMC p r) := h

theorem motivoChange_P (l : List SRow) (hl : ∀ r ∈ l, Pnull r) :
    ∀ r ∈ motivoChange l, Pnull r := by
  intro x hx
  obtain ⟨p', r', hr', hx'⟩ := motivoChangeAux_mem l none x hx
  rw [hx']
  exact mkMC_P p' r' (hl r' hr')

/-- `__status_change` establishes the adjacent-row invariant: a row with
`change = false` kept its predecessor's status. -/
theorem statusChangeAux_chain :
    ∀ (l : List MergedRow) (p : Option MergedRow),
      List.Chain' Rs (statusChangeAux p l) := by
  intro l
  induction l with
  | nil => intro p; simp [statusChangeAux]
  | cons r rest ih =>
    intro p
    rw [show statusChangeAux p (r :: rest) =
          mkSRow p r :: statusChangeAux (some r) rest from rfl]
    rw [List.chain'_cons']
    refine ⟨?_, ih (some r)⟩
    intro b hb
    cases rest with
    | nil => simp [statusChangeAux] at hb
    | cons r' rest2 =>
      rw [show statusChangeAux (some r) (r' :: rest2) =
            mkSRow (some r) r' :: statusChangeAux (some r') rest2 from rfl] at hb
      simp only [List.head?_cons, Option.mem_def, Option.some.injEq] at hb
      subst hb
      intro hch
      have hsc : pdNe r'.status r.status = false := by
        have : (mkSRow (some r) r').change =
            (pdNe r'.status r.status ||
              pdNeV r'.maquina_id (some r.maquina_id) ||
              pdNe r'.turno r.turno) := rfl
        rw [this] at hch
        rcases Bool.or_eq_false_iff.mp hch with ⟨h1, -⟩
        exact (Bool.or_eq_false_iff.mp h1).1
      have := pdNe_eq_false _ _ hsc
      show r.status = r'.status
      exact this.symm

theorem statusChange_chain (l : List MergedRow) :
    List.Chain' Rs (statusChange l) := statusChangeAux_chain l none

/-- The (status, change) projection used to transport the chain invariant
through the fill passes. -/
def projSC (r : SRow) : Option String × Bool := (r.status, r.change)

/-- The adjacent-row invariant as a relation on projections. -/
def RsP (x y : Option String × Bool) : Prop := y.2 = false → x.1 = y.1

theorem ffillPass_proj :
    ∀ (l : List SRow) (st : FillState),
      (ffillPass st l).map projSC = l.map projSC := by
  intro l
  induction l with
  | nil => intro st; rfl
  | cons r rest ih =>
    intro st
    rw [show ffillPass st (r :: rest) =
          applyFS (if r.change then emptyFS else st) r ::
            ffillPass (stateOf (applyFS (if r.change then emptyFS else st) r)) rest
        from rfl]
    simp only [List.map_cons]
    rw [ih]
    rfl

theorem bfillPass_proj :
    ∀ (l : List SRow) (st : FillState),
      (bfillPass st l).map projSC = l.map projSC := by
  intro l
  induction l with
  | nil => intro st; rfl
  | cons r rest ih =>
    intro st
    rw [show bfillPass st (r :: rest) =
          applyFS st r ::
            bfillPass (if r.change then emptyFS else stateOf (applyFS st r)) rest
        from rfl]
    simp only [List.map_cons]
    rw [ih]
    rfl

theorem fillPost_proj (r : SRow) :
    projSC (fillPost r) = (toNullS r.status, r.change) := by
  unfold fillPost projSC
  dsimp only
  split_ifs <;> rfl

/-- The fill pass maps the projection pointwise through `toNullS`. -/
theorem fillOcc_proj (l : List SRow) :
    (fillOcc l).map projSC = l.map (fun r => (toNullS r.status, r.change)) := by
  unfold fillOcc
  have hb :
      ((bfillPass emptyFS (ffillPass emptyFS l).reverse).reverse).map projSC =
        l.map projSC := by
    rw [List.map_reverse, bfillPass_proj, List.map_reverse, ffillPass_proj,
      List.reverse_reverse]
  rw [List.map_map,
    show (projSC ∘ fillPost) = fun r => (toNullS r.status, r.change) from
      funext fillPost_proj,
    show (fun r : SRow => (toNullS r.status, r.change)) =
        (fun x : Option String × Bool => (toNullS x.1, x.2)) ∘ projSC from rfl,
    ← List.map_map, hb, List.map_map]

theorem chain_rs_iff (l : List SRow) :
    List.Chain' Rs l ↔ List.Chain' RsP (l.map projSC) := by
  rw [List.chain'_map]
  rfl

/-- The chain invariant survives the fill pass. -/
theorem fillOcc_chain (l : List SRow) (h : List.Chain' Rs l) :
    List.Chain' Rs (fillOcc l) := by
  rw [chain_rs_iff] at h ⊢
  rw [fillOcc_proj]
  have h2 :
      l.map (fun r => (toNullS r.status, r.change)) =
        (l.map projSC).map (fun x => (toNullS x.1, x.2)) := by
    rw [List.map_map]; rfl
  rw [h2, List.chain'_map]
  refine List.Chain'.imp ?_ h
  intro x y hxy hc
  rw [hxy hc]

/-- `__motivo_change` preserves the chain invariant (`change` only grows,
statuses are untouched). -/
theorem motivoChangeAux_chain :
    ∀ (l : List SRow) (p : Option SRow), List.Chain' Rs l →
      List.Chain' Rs (motivoChangeAux p l) := by
  intro l
  induction l with
  | nil => intro p _; simp [motivoChangeAux]
  | cons r rest ih =>
    intro p hc
    rw [show motivoChangeAux p (r :: rest) =
          mkMC p r :: motivoChangeAux (some r) rest from rfl]
    rw [List.chain'_cons']
    refine ⟨?_, ih (some r) hc.tail⟩
    intro b hb
    cases rest with
    | nil => simp [motivoChangeAux] at hb
    | cons r' rest2 =>
      rw [show motivoChangeAux (some r) (r' :: rest2) =
            mkMC (some r) r' :: motivoChangeAux (some r') rest2 from rfl] at hb
      simp only [List.head?_cons, Option.mem_def, Option.some.injEq] at hb
      subst hb
      intro hch
      have hrc : r'.change = false := by
        have : (mkMC (some r) r').change = (r'.change || _) := rfl
        rw [this] at hch
        exact (Bool.or_eq_false_iff.mp hch).1
      have hrr' : Rs r r' := (List.chain'_cons.mp hc).1
      exact hrr' hrc

/-- The first chunk starts with the first row. -/
theorem chunkRuns_shape :
    ∀ (l : List SRow) (a : SRow), ∃ t cs, chunkRuns (a :: l) = (a :: t) :: cs := by
  intro l
  induction l with
  | nil => intro a; exact ⟨[], [], rfl⟩
  | cons b rest ih =>
    intro a
    obtain ⟨t, cs, h⟩ := ih b
    by_cases hb : b.change
    · refine ⟨[], (b :: t) :: cs, ?_⟩
      rw [show chunkRuns (a :: b :: rest) =
            (match chunkRuns (b :: rest) with
             | [] => [[a]]
             | c :: cs => if b.change then [a] :: c :: cs else (a :: c) :: cs)
          from rfl, h]
      simp [hb]
    · refine ⟨b :: t, cs, ?_⟩
      rw [show chunkRuns (a :: b :: rest) =
            (match chunkRuns (b :: rest) with
             | [] => [[a]]
             | c :: cs => if b.change then [a] :: c :: cs else (a :: c) :: cs)
          from rfl, h]
      simp [hb]

/-- Chunk members are members of the original list. -/
theorem chunkRuns_sub :
    ∀ (l : List SRow) (c : List SRow), c ∈ chunkRuns l → ∀ x ∈ c, x ∈ l := by
  intro l
  induction l with
  | nil => intro c hc; simp [chunkRuns] at hc
  | cons a rest ih =>
    intro c hc x hx
    cases rest with
    | nil =>
      rw [show chunkRuns [a] = [[a]] from rfl] at hc
      rw [List.mem_singleton] at hc
      subst hc
      exact hx
    | cons b rest2 =>
      obtain ⟨t, cs, hsh⟩ := chunkRuns_shape rest2 b
      rw [show chunkRuns (a :: b :: rest2) =
            (match chunkRuns (b :: rest2) with
             | [] => [[a]]
             | c :: cs => if b.change then [a] :: c :: cs else (a :: c) :: cs)
          from rfl, hsh] at hc
      have hc' :
          c ∈ (if b.change then [a] :: (b :: t) :: cs else (a :: b :: t) :: cs) := hc
      by_cases hb : b.change
      · rw [if_pos hb] at hc'
        rcases List.mem_cons.mp hc' with h | h
        · subst h
          rw [List.mem_singleton] at hx
          rw [hx]
          exact List.mem_cons_self a _
        · exact List.mem_cons_of_mem a (ih c (hsh ▸ h) x hx)
      · rw [if_neg hb] at hc'
        rcases List.mem_cons.mp hc' with h | h
        · subst h
          rcases List.mem_cons.mp hx with h' | h'
          · rw [h']; exact List.mem_cons_self a _
          · exact List.mem_cons_of_mem a
              (ih (b :: t) (hsh ▸ List.mem_cons_self _ _) x h')
        · exact List.mem_cons_of_mem a
            (ih c (hsh ▸ List.mem_cons_of_mem _ h) x hx)

/-- Given the adjacent-row invariant, every chunk is status-constant as a
chain. -/
theorem chunkRuns_chain :
    ∀ (l : List SRow), List.Chain' Rs l →
      ∀ c ∈ chunkRuns l, List.Chain' SameStatus c := by
  intro l
  induction l with
  | nil => intro _ c hc; simp [chunkRuns] at hc
  | cons a rest ih =>
    intro hch c hc
    cases rest with
    | nil =>
      rw [show chunkRuns [a] = [[a]] from rfl, List.mem_singleton] at hc
      subst hc
      exact List.chain'_singleton a
    | cons b rest2 =>
      obtain ⟨t, cs, hsh⟩ := chunkRuns_shape rest2 b
      have hab : Rs a b := (List.chain'_cons.mp hch).1
      have hch' : List.Chain' Rs (b :: rest2) := (List.chain'_cons.mp hch).2
      have ih' := ih hch'
      rw [show chunkRuns (a :: b :: rest2) =
            (match chunkRuns (b :: rest2) with
             | [] => [[a]]
             | c :: cs => if b.change then [a] :: c :: cs else (a :: c) :: cs)
          from rfl, hsh] at hc
      have hc' :
          c ∈ (if b.change then [a] :: (b :: t) :: cs else (a :: b :: t) :: cs) := hc
      by_cases hb : b.change
      · rw [if_pos hb] at hc'
        rcases List.mem_cons.mp hc' with h | h
        · subst h; exact List.chain'_singleton a
        · exact ih' c (hsh ▸ h)
      · rw [if_neg hb] at hc'
        rcases List.mem_cons.mp hc' with h | h
        · subst h
          rw [List.chain'_cons]
          refine ⟨hab (by simpa using hb), ?_⟩
          exact ih' (b :: t) (hsh ▸ List.mem_cons_self _ _)
        · exact ih' c (hsh ▸ List.mem_cons_of_mem _ h)

/-- A status-constant chain really is constant. -/
theorem chain_sameStatus_all :
    ∀ (l : List SRow) (a : SRow), List.Chain' SameStatus (a :: l) →
      ∀ x ∈ a :: l, x.status = a.status := by
  intro l
  induction l with
  | nil =>
    intro a _ x hx
    rw [List.mem_singleton] at hx
    subst hx; rfl
  | cons b t ih =>
    intro a hch x hx
    have hab : SameStatus a b := (List.chain'_cons.mp hch).1
    have hch' : List.Chain' SameStatus (b :: t) := (List.chain'_cons.mp hch).2
    rcases List.mem_cons.mp hx with h | h
    · subst h; rfl
    · rw [ih b hch' x h]
      exact hab.symm

theorem firstNonNull_all_none {α : Type} :
    ∀ (l : List (Option α)), (∀ x ∈ l, x = none) → firstNonNull l = none := by
  intro l
  induction l with
  | nil => intro _; rfl
  | cons o t ih =>
    intro h
    have ho : o = none := h o (List.mem_cons_self o t)
    subst ho
    rw [show firstNonNull (none :: t) = firstNonNull t from rfl]
    exact ih (fun x hx => h x (List.mem_cons_of_mem none hx))

/-- If an aggregated interval is running, all its annotation fields are the
first non-null value of an all-null column, hence null. -/
theorem aggGroup_running (c : List SRow) (g : GRow) (hg : aggGroup c = some g)
    (hP : ∀ x ∈ c, Pnull x) (hch : List.Chain' SameStatus c)
    (hst : g.status = some "rodando") :
    g.motivo = none ∧ g.equipamento = none ∧ g.problema = none ∧ g.causa = none ∧
    g.os_numero = none ∧ g.operador_id = none ∧ g.s_backup = none := by
  cases c with
  | nil => simp [aggGroup] at hg
  | cons r rs =>
    simp only [aggGroup, Option.some.injEq] at hg
    subst hg
    have hstatus : ∀ x ∈ r :: rs, x.status = r.status :=
      chain_sameStatus_all rs r hch
    have hst' :
        firstNonNull ((r :: rs).map (fun x => x.status)) = some "rodando" := hst
    have hrod : ∀ x ∈ r :: rs, x.status = some "rodando" := by
      cases hr : r.status with
      | none =>
        exfalso
        have hall : ∀ z ∈ (r :: rs).map (fun x => x.status), z = none := by
          intro z hz
          rw [List.mem_map] at hz
          obtain ⟨x, hx, hzx⟩ := hz
          rw [← hzx, hstatus x hx, hr]
        rw [firstNonNull_all_none _ hall] at hst'
        cases hst'
      | some v =>
        have hv : v = "rodando" := by
          rw [List.map_cons, hr] at hst'
          rw [show firstNonNull (some v :: rs.map (fun x => x.status)) = some v
              from rfl] at hst'
          exact Option.some.inj hst'
        intro x hx
        rw [hstatus x hx, hr, hv]
    have hfields := fun x hx => hP x hx (hrod x hx)
    refine ⟨?_, ?_, ?_, ?_, ?_, ?_, ?_⟩ <;>
      · apply firstNonNull_all_none
        intro z hz
        rw [List.mem_map] at hz
        obtain ⟨x, hx, hzx⟩ := hz
        rw [← hzx]
        have h := hfields x hx
        tauto

/-- C3.  Every UnifiedInterval row of `join_data` with running status
carries null annotation fields (motivo, equipamento, problema, causa,
os_numero, operador_id, s_backup), and the final "Saída para Backup"
domain correction keeps them null. -/
theorem C3_running_fields_null (l : List MergedRow) (now : ℤ) (u : URow)
    (hu : u ∈ joinData l now) (hst : u.status = some "rodando") :
    u.motivo = none ∧ u.equipamento = none ∧ u.problema = none ∧ u.causa = none ∧
    u.os_numero = none ∧ u.operador_id = none ∧ u.s_backup = none := by
  unfold joinData at hu
  rw [List.mem_filter] at hu
  obtain ⟨hu, -⟩ := hu
  rw [List.mem_map] at hu
  obtain ⟨g2, hg2, hfa⟩ := hu
  unfold calcTimeDifference at hg2
  obtain ⟨g, dhf, hgmem, hx⟩ := addFinal_mem now _ g2 hg2
  rw [List.mem_filterMap] at hgmem
  obtain ⟨c, hc, hagg⟩ := hgmem
  have hP3 : ∀ x ∈ motivoChange (fillOcc (statusChange l)), Pnull x :=
    motivoChange_P _ (fillOcc_P _)
  have hchain : List.Chain' Rs (motivoChange (fillOcc (statusChange l))) :=
    motivoChangeAux_chain _ none (fillOcc_chain _ (statusChange_chain l))
  have hcP : ∀ x ∈ c, Pnull x := fun x hxc =>
    hP3 x (chunkRuns_sub _ c hc x hxc)
  have hcch : List.Chain' SameStatus c := chunkRuns_chain _ hchain c hc
  have hgst : g.status = some "rodando" := by
    have h1 : u.status = g.status := by rw [← hfa, hx]; rfl
    rw [← h1]
    exact hst
  obtain ⟨hm, he, hp, hca, ho, hop, hs⟩ :=
    aggGroup_running c g hagg hcP hcch hgst
  have hmask : (g.motivo = some "Saída para Backup") = False := by
    simp [hm]
  have hu_eq : u = finalAdjust (mkG2 g dhf) := by rw [← hfa, hx]
  rw [hu_eq]
  unfold finalAdjust
  have hgm : (mkG2 g dhf).toGRow = g := rfl
  refine ⟨?_, ?_, ?_, ?_, ?_, ?_, ?_⟩ <;>
    simp [hgm, hm, he, hp, hca, ho, hop, hs]

/-- Witness for C3 at the concrete running interval. -/
theorem C3_running_fields_null_witness :
    exURow.motivo = none ∧ exURow.equipamento = none ∧ exURow.problema = none ∧
    exURow.causa = none ∧ exURow.os_numero = none ∧ exURow.operador_id = none ∧
    exURow.s_backup = none :=
  C3_running_fields_null [exMerged] 8668860 exURow
    (by rw [joinData_exMerged]; exact List.mem_singleton.mpr rfl)
    rfl
